import Mathlib

/-!
Shallow embedding of the prose language core (lexer, parser fragment,
interpreter fragment) from src/prose_lang/{lexer,parser,interpreter}.py.

Modelling conventions, used throughout:
* Python floats are modelled as exact rationals; every numeric input in the
  theorems below is dyadic-exact, so rational arithmetic agrees with IEEE
  arithmetic on them.
* Error messages are carried without the "Line N:" prefix and abbreviated
  (no apostrophes); only the error kind and identity of the message matter
  to the theorems.
* `Err.rt` models the interpreter exception class `RuntimeError_`;
  `Err.host` models any other (host-level, Python) exception escaping the
  interpreter, e.g. a `TypeError`.
-/

/-- Error kinds: `rt` is the interpreter exception `RuntimeError_`; `host`
is any other Python exception (uncaught host-level error). -/
inductive Err where
  | rt : String → Err
  | host : String → Err
deriving Repr, DecidableEq

/-- Runtime value domain of the interpreter (interpreter.py). `vint`/`vfloat`
mirror Python int/float (floats as exact rationals), `vtask` mirrors the
`AsyncFuncThread`/`AsyncMethodThread` handle with its `thread_result` and
`thread_error` fields, `vclosure n` stands for `Closure(functions[n],
global_env)` (the claims never invoke a closure, only observe its kind). -/
inductive Val where
  | vint : Int → Val
  | vfloat : ℚ → Val
  | vstr : String → Val
  | vbool : Bool → Val
  | vnone : Val
  | vlist : List Val → Val
  | vdict : List (Val × Val) → Val
  | vclosure : String → Val
  | vtask : Val → Option Err → Val

/-- Python repr of a float, approximated: whole floats render as "n.0",
others via the rational printer. Only the whole-float case is ever reached
by a claim. -/
def pyFloatRepr (q : ℚ) : String :=
  if q.den = 1 then toString q.num ++ ".0" else toString q

mutual
/-- Python `str(value)` on interpreter values, as used by `_apply_op` in the
string branch of `plus` and by `_loose_eq`. Containers are approximated
(element quoting of Python repr omitted); `Closure.__str__` is faithfully
"<function>". No claim exercises the container or task cases. -/
def pyStr : Val → String
  | .vint n => toString n
  | .vfloat q => pyFloatRepr q
  | .vstr s => s
  | .vbool b => if b then "True" else "False"
  | .vnone => "None"
  | .vlist l => "[" ++ pyStrList l ++ "]"
  | .vdict l => "\x7b" ++ pyStrPairs l ++ "\x7d"
  | .vclosure _ => "<function>"
  | .vtask _ _ => "<Thread>"

def pyStrList : List Val → String
  | [] => ""
  | [v] => pyStr v
  | v :: rest => pyStr v ++ ", " ++ pyStrList rest

def pyStrPairs : List (Val × Val) → String
  | [] => ""
  | [(k, v)] => pyStr k ++ ": " ++ pyStr v
  | (k, v) :: rest => pyStr k ++ ": " ++ pyStr v ++ ", " ++ pyStrPairs rest
end

mutual
/-- Python `==` on interpreter values: numbers (int/float/bool) compare by
numeric value across kinds, same-kind values compare structurally, lists
elementwise, dictionaries by length plus one-sided key/value containment
(CPython dict equality). Closures and task handles compare by object
identity in Python; the model returns false (the claims never compare two
such values). -/
def pyEq : Val → Val → Bool
  | .vint a, .vint b => a == b
  | .vint a, .vfloat q => (a : ℚ) == q
  | .vint a, .vbool b => a == (if b then 1 else 0)
  | .vfloat q, .vint b => q == (b : ℚ)
  | .vfloat a, .vfloat b => a == b
  | .vfloat q, .vbool b => q == (if b then (1 : ℚ) else 0)
  | .vbool a, .vint b => (if a then (1 : Int) else 0) == b
  | .vbool a, .vfloat q => (if a then (1 : ℚ) else 0) == q
  | .vbool a, .vbool b => a == b
  | .vstr a, .vstr b => a == b
  | .vnone, .vnone => true
  | .vlist a, .vlist b => pyEqList a b
  | .vdict a, .vdict b => a.length == b.length && pyEqPairsSub a b
  | _, _ => false
termination_by a b => sizeOf a + sizeOf b
decreasing_by all_goals (simp_wf; try omega)

def pyEqList : List Val → List Val → Bool
  | [], [] => true
  | a :: as_, b :: bs => pyEq a b && pyEqList as_ bs
  | _, _ => false
termination_by a b => sizeOf a + sizeOf b
decreasing_by all_goals (simp_wf; try omega)

def pyEqPairsSub : List (Val × Val) → List (Val × Val) → Bool
  | [], _ => true
  | (k, v) :: rest, other => pyEqEntryIn k v other && pyEqPairsSub rest other
termination_by a b => sizeOf a + sizeOf b
decreasing_by all_goals (simp_wf; try omega)

def pyEqEntryIn : Val → Val → List (Val × Val) → Bool
  | _, _, [] => false
  | k, v, (k2, v2) :: rest => (pyEq k k2 && pyEq v v2) || pyEqEntryIn k v rest
termination_by k v l => sizeOf k + sizeOf v + sizeOf l
decreasing_by all_goals (simp_wf; try omega)
end

/-- ASCII model of Python str.lower on one character. -/
def lowerChar (c : Char) : Char :=
  if 'A' ≤ c ∧ c ≤ 'Z' then Char.ofNat (c.toNat + 32) else c

/-- ASCII model of Python str.lower (the sources only lowercase ASCII
keywords and renderings). -/
def lowerStr (s : String) : String :=
  String.mk (s.data.map lowerChar)

/-- Helper: do two values have the same Python type (for `_loose_eq`)? -/
def sameType : Val → Val → Bool
  | .vint _, .vint _ => true
  | .vfloat _, .vfloat _ => true
  | .vstr _, .vstr _ => true
  | .vbool _, .vbool _ => true
  | .vnone, .vnone => true
  | .vlist _, .vlist _ => true
  | .vdict _, .vdict _ => true
  | .vclosure _, .vclosure _ => true
  | .vtask _ _, .vtask _ _ => true
  | _, _ => false

/-- Parse a decimal numeral, modelling Python `float(str)` on plain decimal
strings (optional sign, digits, at most one point). Python additionally
accepts exponents, surrounding whitespace and inf/nan spellings; no claim
exercises those. Returns none when the string is not such a numeral. -/
def parseDecimal? (s : String) : Option ℚ :=
  let rec digitsVal : List Char → Option (Nat × Nat)
    | [] => some (0, 0)
    | c :: rest =>
      if c.isDigit then
        match digitsVal rest with
        | some (v, k) => some (c.toNat - 48 + 10 * v, k + 1)
        | none => none
      else none
  let core (cs : List Char) : Option ℚ :=
    match cs.splitOn '.' with
    | [ds] =>
      match digitsVal ds.reverse with
      | some (v, k) => if k = 0 then none else some (v : ℚ)
      | none => none
    | [ds, fs] =>
      match digitsVal ds.reverse, digitsVal fs.reverse with
      | some (v, k), some (w, m) =>
        if k = 0 && m = 0 then none
        else some ((v : ℚ) + (w : ℚ) / ((10 : ℚ) ^ m))
      | _, _ => none
    | _ => none
  match s.data with
  | '-' :: rest => (core rest).map (fun q => -q)
  | '+' :: rest => core rest
  | cs => core cs

/-- Python `float(value)` coercion: succeeds on int, float, bool and numeric
text, fails (raises, modelled as none) otherwise. -/
def pyFloat? : Val → Option ℚ
  | .vint n => some n
  | .vfloat q => some q
  | .vbool b => some (if b then 1 else 0)
  | .vstr s => parseDecimal? s
  | _ => none

/-- Interpreter._loose_eq: same-type values compare by value; otherwise try
numeric coercion of both sides; failing that compare lowercased text
renderings. -/
def looseEq (a b : Val) : Bool :=
  if sameType a b then pyEq a b
  else
    match pyFloat? a, pyFloat? b with
    | some x, some y => x == y
    | _, _ => lowerStr (pyStr a) == lowerStr (pyStr b)

/-- Interpreter._clean: an integer-valued float becomes an int, everything
else is unchanged. -/
def clean : Val → Val
  | .vfloat q => if q.den = 1 then .vint q.num else .vfloat q
  | v => v

/-- Abbreviated message of Interpreter._assert_num. -/
def notNumberMsg : String := "operand is not a number"

/-- Interpreter._assert_num followed by reading the numeric value: int and
float pass (booleans are explicitly excluded), everything else raises. -/
def assert_num (v : Val) : Except Err ℚ :=
  match v with
  | .vint n => .ok n
  | .vfloat q => .ok q
  | _ => .error (.rt notNumberMsg)

/-- Helper: is the value a Python float? -/
def isFloatVal : Val → Bool
  | .vfloat _ => true
  | _ => false

/-- Helper: is the value text? -/
def isStrVal : Val → Bool
  | .vstr _ => true
  | _ => false

/-- Helper: raw Python numeric value for `+` (bool counts as an int there). -/
def plusNum? : Val → Option ℚ
  | .vint n => some n
  | .vfloat q => some q
  | .vbool b => some (if b then 1 else 0)
  | _ => none

/-- Helper: tag an arithmetic result with Python promotion — float when
either operand is a float, int otherwise. -/
def arithVal (l r : Val) (q : ℚ) : Val :=
  if isFloatVal l || isFloatVal r then .vfloat q else .vint q.num

/-- Message of the division-by-zero error. -/
def divZeroMsg : String := "I cannot divide by zero."

/-- Message of the modulo-by-zero error. -/
def modZeroMsg : String := "I cannot take the remainder of dividing by zero."

/-- Message of the unknown-operator error. -/
def unknownOpMsg : String := "Unknown operator."

/-- Abbreviated message of the Python TypeError raised by `+` on unsupported
operand kinds (a host exception, not a RuntimeError_). -/
def plusTypeErrorMsg : String := "TypeError: unsupported operand types for +"

/-- Interpreter._apply_op. `plus` concatenates two lists; joins with a space
when either side is text; otherwise performs raw Python addition (no _clean,
bools allowed). `minus`, `times`, `divided_by`, `modulo` assert numeric
operands (bools rejected), check for zero divisors, and pass their result
through `_clean`; Python true division always yields a float before _clean;
Python `%` follows the sign of the divisor (floor-based remainder). -/
def applyOp (op : String) (l r : Val) : Except Err Val :=
  if op = "plus" then
    match l, r with
    | .vlist a, .vlist b => .ok (.vlist (a ++ b))
    | _, _ =>
      if isStrVal l || isStrVal r then .ok (.vstr (pyStr l ++ " " ++ pyStr r))
      else
        match plusNum? l, plusNum? r with
        | some a, some b =>
          .ok (if isFloatVal l || isFloatVal r then .vfloat (a + b) else .vint (a + b).num)
        | _, _ => .error (.host plusTypeErrorMsg)
  else if op = "minus" then
    match assert_num l, assert_num r with
    | .error er, _ => .error er
    | _, .error er => .error er
    | .ok a, .ok b => .ok (clean (arithVal l r (a - b)))
  else if op = "times" then
    match assert_num l, assert_num r with
    | .error er, _ => .error er
    | _, .error er => .error er
    | .ok a, .ok b => .ok (clean (arithVal l r (a * b)))
  else if op = "divided_by" then
    match assert_num l, assert_num r with
    | .error er, _ => .error er
    | _, .error er => .error er
    | .ok a, .ok b =>
      if b = 0 then .error (.rt divZeroMsg)
      else .ok (clean (.vfloat (a / b)))
  else if op = "modulo" then
    match assert_num l, assert_num r with
    | .error er, _ => .error er
    | _, .error er => .error er
    | .ok a, .ok b =>
      if b = 0 then .error (.rt modZeroMsg)
      else .ok (clean (arithVal l r (a - b * (⌊a / b⌋ : ℤ))))
  else .error (.rt unknownOpMsg)

mutual
/-- Interpreter._to_display: rendering of values to text, in the source
order of checks (None, bool, list, dict, whole float, fallback str). -/
def _to_display : Val → String
  | .vnone => "nothing"
  | .vbool b => if b then "true" else "false"
  | .vlist l => "[" ++ _to_display_list l ++ "]"
  | .vdict l => "\x7b" ++ _to_display_pairs l ++ "\x7d"
  | .vfloat q => if q.den = 1 then toString q.num else pyFloatRepr q
  | .vint n => toString n
  | .vstr s => s
  | .vclosure _ => "<function>"
  | .vtask _ _ => "<Thread>"

def _to_display_list : List Val → String
  | [] => ""
  | [v] => _to_display v
  | v :: rest => _to_display v ++ ", " ++ _to_display_list rest

def _to_display_pairs : List (Val × Val) → String
  | [] => ""
  | [(k, v)] => _to_display k ++ ": " ++ _to_display v
  | (k, v) :: rest => _to_display k ++ ": " ++ _to_display v ++ ", " ++ _to_display_pairs rest
end

/-! ### Environments (the scope chain)

An `Environment` in the source is a name→value dict plus a parent link. The
interpreter only ever navigates a chain from the current scope to the global
root, so the model represents the whole chain as a list of frames: head =
innermost (current) scope, last = root (global) scope. Each frame is an
insertion-ordered association list mirroring the Python dict. Executing a
block "in a fresh child scope" pushes an empty frame; discarding the child
when the frame completes pops it. -/

/-- One scope frame: the `self.vars` dict of an Environment. -/
abbrev Frame := List (String × Val)

/-- Lookup in one frame (Python `name in self.vars` / `self.vars[name]`). -/
def frameGet : Frame → String → Option Val
  | [], _ => none
  | (k, v) :: rest, n => if k = n then some v else frameGet rest n

/-- Membership in one frame. -/
def frameHas (f : Frame) (n : String) : Bool :=
  (frameGet f n).isSome

/-- Update of one frame, preserving insertion order; an absent key is
appended at the end (Python dict assignment). -/
def frameSet : Frame → String → Val → Frame
  | [], n, v => [(n, v)]
  | (k, w) :: rest, n, v => if k = n then (k, v) :: rest else (k, w) :: frameSet rest n v

/-- A scope chain: head is the current scope, last is the global root. -/
abbrev Env := List Frame

/-- Environment.get — walk parent links until the name is found; none models
the name-not-found RuntimeError_ raised when the chain is exhausted. -/
def Environment.get : Env → String → Option Val
  | [], _ => none
  | f :: rest, n =>
    match frameGet f n with
    | some v => some v
    | none => Environment.get rest n

/-- Environment.assign — rewrite the binding in the innermost frame that
already owns the name; if no frame in the chain owns it, the recursion
bottoms out at the root frame (the scope with no parent) and creates the
binding there. -/
def Environment.assign : Env → String → Val → Env
  | [], _, _ => []
  | f :: rest, n, v =>
    if frameHas f n then frameSet f n v :: rest
    else
      match rest with
      | [] => [frameSet f n v]
      | _ :: _ => f :: Environment.assign rest n v

/-- Environment.set_local — bind in the current (head) frame only. -/
def Environment.setLocal : Env → String → Val → Env
  | [], _, _ => []
  | f :: rest, n, v => frameSet f n v :: rest

/-! ### AST nodes (parser.py dataclasses), restricted to the node kinds the
claims exercise. `NumberLiteral` carries the float the parser builds with
`float(tok.value)`, as an exact rational. -/

/-- Expression nodes. `LiteralNode` wraps an already-computed value (as in
the source); `Identifier` is a name lookup; `WaitExpr` is the "wait for"
expression; `DictAccess` reads a dictionary entry. -/
inductive Expr where
  | NumberLiteral : ℚ → Expr
  | StringLiteral : String → Expr
  | BoolLiteral : Bool → Expr
  | NoneLiteral : Expr
  | LiteralNode : Val → Expr
  | Identifier : String → Expr
  | BinOp : Expr → String → Expr → Expr
  | DictAccess : Expr → Expr → Expr
  | WaitExpr : Expr → Expr

/-- Condition nodes: `Condition(left, op, right)` where right is none for
the bare type predicates, and `CompoundCondition(left, connective, right)`
for and/or chains. The file-existence condition is host I/O and is omitted
(no claim mentions it). -/
inductive Cond where
  | Condition : Expr → String → Option Expr → Cond
  | CompoundCondition : Cond → String → Cond → Cond

/-- Statement nodes for the claims: Let, If (else body empty list when the
source has none), the two error handlers, and the bare loop-control
statements. Loop statements are modelled separately by `exec_while`
below. -/
inductive Stmt where
  | LetStmt : String → Expr → Stmt
  | IfStmt : Cond → List Stmt → List Stmt → Stmt
  | TryCatch : List Stmt → String → List Stmt → Stmt
  | AttemptStmt : List Stmt → String → List Stmt → Stmt
  | StopStmt : Stmt
  | SkipStmt : Stmt

/-- Parameter of a function or method definition. -/
structure ParamDef where
  name : String
  default_expr : Option Expr

/-- Function definition record (held in the global function table). -/
structure FunctionDef where
  name : String
  params : List ParamDef
  body : List Stmt
  is_async : Bool

/-- Method definition record (held in the per-class method tables). -/
structure MethodDef where
  class_name : String
  name : String
  params : List ParamDef
  body : List Stmt
  is_async : Bool

/-- Class definition record: name, own property names, optional single
parent class name. -/
structure ClassDef where
  name : String
  properties : List String
  parent : Option String

/-- Association-list lookup, modelling Python dict indexing for the
string-keyed interpreter tables. -/
def lookupStr {α : Type} : List (String × α) → String → Option α
  | [], _ => none
  | (k, v) :: rest, n => if k = n then some v else lookupStr rest n

/-- Interpreter instance state: the global definition tables. Only the
tables the claims touch are carried. -/
structure Interp where
  functions : List (String × FunctionDef)
  classes : List (String × ClassDef)
  methods : List (String × List (String × MethodDef))

/-- Interpreter instance with empty definition tables. -/
def interpEmpty : Interp := ⟨[], [], []⟩

/-- Message of the dictionary read on a non-dictionary. -/
def dictGetKindMsg : String := "Can only get a value from a dictionary."

/-- Abbreviated message of the missing-dictionary-key error. -/
def dictKeyMsg : String := "The dictionary does not have the key."

/-- Message of the remove on a non-dictionary. -/
def dictRemoveKindMsg : String := "Can only remove a value from a dictionary."

/-- Python `k in d` on the dictionary representation (keys compared with
Python ==). -/
def dictHasKey (pairs : List (Val × Val)) (k : Val) : Bool :=
  match pairs with
  | [] => false
  | (k2, _) :: rest => pyEq k2 k || dictHasKey rest k

/-- Python `d[k]` read on the dictionary representation; the default is
unreachable when `dictHasKey` holds. -/
def dictGet (pairs : List (Val × Val)) (k : Val) : Val :=
  match pairs with
  | [] => .vnone
  | (k2, v) :: rest => if pyEq k2 k then v else dictGet rest k

/-- Python `del d[k]` on the dictionary representation (removes the unique
entry whose key compares equal). -/
def dictDel (pairs : List (Val × Val)) (k : Val) : List (Val × Val) :=
  match pairs with
  | [] => []
  | (k2, v) :: rest => if pyEq k2 k then rest else (k2, v) :: dictDel rest k

/-- Interpreter._exec_remove_dict_value, lines 337-343, applied to the
already-evaluated dictionary and key: raise on a non-dictionary; delete the
key if present, otherwise do nothing (`if k in d: del d[k]`). The returned
value is the state of the dictionary object after the statement. -/
def exec_remove_dict_value (d k : Val) : Except Err Val :=
  match d with
  | .vdict pairs => .ok (.vdict (if dictHasKey pairs k then dictDel pairs k else pairs))
  | _ => .error (.rt dictRemoveKindMsg)

/-- Abbreviated usage-error message of the WaitExpr else-branch. -/
def waitUsageMsg : String :=
  "Cannot waiting for something that is not an active background task."

/-- Abbreviated message of the Python TypeError raised by calling
`str.join` with no argument. -/
def strJoinTypeErrorMsg : String :=
  "TypeError: join takes exactly one argument, 0 given"

/-- WaitExpr handling (interpreter.py lines 1609-1625) applied to the
evaluated operand. The code duck-types with `hasattr(future, "result")`
(never true for an interpreter value: no Future values exist in the value
domain) and then `hasattr(future, "join")`. A task handle has `join`: the
code joins the thread, re-raises a stored `thread_error`, else returns
`thread_result`. A Python str ALSO has a `join` attribute (the string
method), so a text value enters the same branch and `future.join()` raises
a host-level TypeError (str.join needs an iterable argument) that no
interpreter code catches. Every other value reaches the else branch and
raises the intended usage RuntimeError_. -/
def wait_for (fut : Val) : Except Err Val :=
  match fut with
  | .vtask res err? =>
    match err? with
    | some er => .error er
    | none => .ok res
  | .vstr _ => .error (.host strJoinTypeErrorMsg)
  | _ => .error (.rt waitUsageMsg)

/-- Interpreter.evaluate, restricted to the expression nodes above.
The Identifier branch (lines 1285-1296) looks the name up in the scope
chain, and on the name-not-found RuntimeError_ falls back: a name present
in the global function table yields a `Closure(func_def, global_env)`
value, any other unknown name evaluates to its own text. The DictAccess
branch (lines 1332-1339) checks the dictionary kind before evaluating the
key, then raises on a missing key. -/
def evaluate (I : Interp) : Expr → Env → Except Err Val
  | .NumberLiteral q, _ => .ok (if q.den = 1 then .vint q.num else .vfloat q)
  | .StringLiteral s, _ => .ok (.vstr s)
  | .BoolLiteral b, _ => .ok (.vbool b)
  | .NoneLiteral, _ => .ok .vnone
  | .LiteralNode v, _ => .ok v
  | .Identifier n, env =>
    match Environment.get env n with
    | some v => .ok v
    | none =>
      match lookupStr I.functions n with
      | some _ => .ok (.vclosure n)
      | none => .ok (.vstr n)
  | .BinOp l op r, env =>
    match evaluate I l env with
    | .error er => .error er
    | .ok lv =>
      match evaluate I r env with
      | .error er => .error er
      | .ok rv => applyOp op lv rv
  | .DictAccess de ke, env =>
    match evaluate I de env with
    | .error er => .error er
    | .ok d =>
      match d with
      | .vdict pairs =>
        match evaluate I ke env with
        | .error er => .error er
        | .ok k =>
          if dictHasKey pairs k then .ok (dictGet pairs k)
          else .error (.rt dictKeyMsg)
      | _ => .error (.rt dictGetKindMsg)
  | .WaitExpr e, env =>
    match evaluate I e env with
    | .error er => .error er
    | .ok fut => wait_for fut

/-- Message of the has-the-key check on a non-dictionary. -/
def hasKeyKindMsg : String := "has the key can only be used on a dictionary."

/-- Abbreviated message of Interpreter._to_num on a non-coercible value. -/
def toNumMsg : String := "value is not a number for this comparison"

/-- Message of the unknown-comparison fallthrough. -/
def unknownCmpMsg : String := "Unknown comparison."

/-- Message raised when a comparison Condition has no right operand node
(the evaluator falls through to its unknown-node error). -/
def noneNodeMsg : String := "I do not know how to evaluate: NoneType."

/-- Interpreter._to_num: int/float pass directly, anything else goes
through Python float coercion (so booleans and numeric text pass too),
otherwise a RuntimeError_. -/
def to_num (v : Val) : Except Err ℚ :=
  match v with
  | .vint n => .ok n
  | .vfloat q => .ok q
  | _ =>
    match pyFloat? v with
    | some q => .ok q
    | none => .error (.rt toNumMsg)

/-- Interpreter.evaluate_condition. A CompoundCondition evaluates its left
side, then short-circuits exactly like Python `and`/`or` (any connective
other than "and" behaves as "or", as in the source). A single Condition
evaluates its left expression, answers the bare type predicates without a
right side, and otherwise evaluates the right side and compares: equals /
not_equals via _loose_eq, has_key on dictionaries, and the four orderings
after _to_num coercion of both sides. -/
def evaluate_condition (I : Interp) : Cond → Env → Except Err Bool
  | .CompoundCondition l conn r, env =>
    match evaluate_condition I l env with
    | .error er => .error er
    | .ok lv =>
      if conn = "and" then
        if lv then evaluate_condition I r env else .ok false
      else
        if lv then .ok true else evaluate_condition I r env
  | .Condition le op re?, env =>
    match evaluate I le env with
    | .error er => .error er
    | .ok lv =>
      if op = "is_number" then
        .ok (match lv with | .vint _ => true | .vfloat _ => true | _ => false)
      else if op = "is_text" then .ok (isStrVal lv)
      else if op = "is_list" then
        .ok (match lv with | .vlist _ => true | _ => false)
      else if op = "is_boolean" then
        .ok (match lv with | .vbool _ => true | _ => false)
      else
        match re? with
        | none => .error (.rt noneNodeMsg)
        | some re =>
          match evaluate I re env with
          | .error er => .error er
          | .ok rv =>
            if op = "equals" then .ok (looseEq lv rv)
            else if op = "not_equals" then .ok (!looseEq lv rv)
            else if op = "has_key" then
              match lv with
              | .vdict pairs => .ok (dictHasKey pairs rv)
              | _ => .error (.rt hasKeyKindMsg)
            else
              match to_num lv with
              | .error er => .error er
              | .ok ln =>
                match to_num rv with
                | .error er => .error er
                | .ok rn =>
                  if op = "greater_than" then .ok (decide (ln > rn))
                  else if op = "less_than" then .ok (decide (ln < rn))
                  else if op = "greater_equal" then .ok (decide (ln ≥ rn))
                  else if op = "less_equal" then .ok (decide (ln ≤ rn))
                  else .error (.rt unknownCmpMsg)

/-- Outcome of executing statements: normal completion, the Stop and Skip
loop signals, or an error. Each outcome carries the scope chain as mutated
so far (Python environments are mutated in place, so state changes made
before a raise survive it); the return signal is omitted (no claim
involves a give-back). -/
inductive StmtRes where
  | okS : Env → StmtRes
  | stopS : Env → StmtRes
  | skipS : Env → StmtRes
  | errS : Err → Env → StmtRes

/-- Message text of an error (Python `str(e)`), used by the handlers. -/
def errMsg : Err → String
  | .rt m => m
  | .host m => m

/-- Interpreter.execute over a statement list, with the statement dispatch
of execute_stmt inlined. Block-introducing constructs push a fresh child
frame and drop it afterwards. `TryCatch` (lines 318-325) runs its body in
a fresh child scope and its `except (RuntimeError_, Exception)` clause
catches every exception — including the Stop and Skip signal exceptions —
binding `str(e)` (empty for the signals) into a fresh handler scope.
`AttemptStmt` (lines 814-828) runs its body DIRECTLY in the entry scope
(no child frame) and catches only RuntimeError_, so host errors and the
loop signals propagate; the rendered call-stack suffix of its message is
omitted (no claim depends on it). -/
def execStmts (I : Interp) : List Stmt → Env → StmtRes
  | [], env => .okS env
  | .LetStmt n e :: rest, env =>
    match evaluate I e env with
    | .error er => .errS er env
    | .ok v => execStmts I rest (Environment.assign env n v)
  | .IfStmt c t els :: rest, env =>
    match evaluate_condition I c env with
    | .error er => .errS er env
    | .ok true =>
      match execStmts I t (([] : Frame) :: env) with
      | .okS ch => execStmts I rest ch.tail
      | .stopS ch => .stopS ch.tail
      | .skipS ch => .skipS ch.tail
      | .errS er ch => .errS er ch.tail
    | .ok false =>
      if els.isEmpty then execStmts I rest env
      else
        match execStmts I els (([] : Frame) :: env) with
        | .okS ch => execStmts I rest ch.tail
        | .stopS ch => .stopS ch.tail
        | .skipS ch => .skipS ch.tail
        | .errS er ch => .errS er ch.tail
  | .TryCatch b ev h :: rest, env =>
    match execStmts I b (([] : Frame) :: env) with
    | .okS ch => execStmts I rest ch.tail
    | .stopS ch =>
      match execStmts I h ([(ev, Val.vstr "")] :: ch.tail) with
      | .okS ch2 => execStmts I rest ch2.tail
      | .stopS ch2 => .stopS ch2.tail
      | .skipS ch2 => .skipS ch2.tail
      | .errS er2 ch2 => .errS er2 ch2.tail
    | .skipS ch =>
      match execStmts I h ([(ev, Val.vstr "")] :: ch.tail) with
      | .okS ch2 => execStmts I rest ch2.tail
      | .stopS ch2 => .stopS ch2.tail
      | .skipS ch2 => .skipS ch2.tail
      | .errS er2 ch2 => .errS er2 ch2.tail
    | .errS er ch =>
      match execStmts I h ([(ev, Val.vstr (errMsg er))] :: ch.tail) with
      | .okS ch2 => execStmts I rest ch2.tail
      | .stopS ch2 => .stopS ch2.tail
      | .skipS ch2 => .skipS ch2.tail
      | .errS er2 ch2 => .errS er2 ch2.tail
  | .AttemptStmt b ev h :: rest, env =>
    match execStmts I b env with
    | .okS e2 => execStmts I rest e2
    | .stopS e2 => .stopS e2
    | .skipS e2 => .skipS e2
    | .errS (.host m) e2 => .errS (.host m) e2
    | .errS (.rt m) e2 =>
      match execStmts I h ([(ev, Val.vstr m)] :: e2) with
      | .okS ch2 => execStmts I rest ch2.tail
      | .stopS ch2 => .stopS ch2.tail
      | .skipS ch2 => .skipS ch2.tail
      | .errS er2 ch2 => .errS er2 ch2.tail
  | .StopStmt :: _, env => .stopS env
  | .SkipStmt :: _, env => .skipS env

/-- Message of the while-loop iteration-cap error. -/
def whileCapMsg : String :=
  "I have been repeating this loop for far too long. Please check your While condition."

/-- Interpreter._exec_while (lines 241-253), parameterized by the behavior
of `evaluate_condition(node.condition, env)` (condF) and of
`execute(node.body, Environment(parent=env))` followed by discarding the
child frame (bodyF). The source counts iterations upward and raises the
cap RuntimeError_ when the count first exceeds 10,000,000; the model
counts the remaining budget downward, raising when the condition is true
and the budget is exhausted, which is reached exactly after the
10,000,000th body execution. A Skip outcome continues the loop, a Stop
outcome ends it (the source catches StopException around the loop), an
error propagates. -/
def exec_while_aux (condF : Env → Except Err Bool) (bodyF : Env → StmtRes) :
    Nat → Env → StmtRes
  | r, env =>
    match condF env with
    | .error er => .errS er env
    | .ok false => .okS env
    | .ok true =>
      match r with
      | 0 => .errS (.rt whileCapMsg) env
      | r + 1 =>
        match bodyF env with
        | .okS e2 => exec_while_aux condF bodyF r e2
        | .skipS e2 => exec_while_aux condF bodyF r e2
        | .stopS e2 => .okS e2
        | .errS er e2 => .errS er e2

/-- Entry point of the while-loop model: the iteration budget is the
10,000,000 cap of the source. -/
def exec_while (condF : Env → Except Err Bool) (bodyF : Env → StmtRes)
    (env : Env) : StmtRes :=
  exec_while_aux condF bodyF 10000000 env

/-- Instrumented twin of `exec_while_aux` that additionally counts how many
times the body ran; used to state the iteration bound. -/
def exec_while_count (condF : Env → Except Err Bool) (bodyF : Env → StmtRes) :
    Nat → Env → StmtRes × Nat
  | r, env =>
    match condF env with
    | .error er => (.errS er env, 0)
    | .ok false => (.okS env, 0)
    | .ok true =>
      match r with
      | 0 => (.errS (.rt whileCapMsg) env, 0)
      | r + 1 =>
        match bodyF env with
        | .okS e2 =>
          let p := exec_while_count condF bodyF r e2
          (p.1, p.2 + 1)
        | .skipS e2 =>
          let p := exec_while_count condF bodyF r e2
          (p.1, p.2 + 1)
        | .stopS e2 => (.okS e2, 1)
        | .errS er e2 => (.errS er e2, 1)

/-- Method lookup walk of Interpreter._call_method (lines 918-933): check
the method table of the searched class; on a miss follow the single parent
link while one exists. The source loop runs unboundedly (an accidental
inheritance cycle loops forever); the model carries a step budget, and
every theorem supplies a budget at least as large as the chain it
traverses. -/
def find_method (I : Interp) : Nat → String → String → Option MethodDef
  | 0, _, _ => none
  | fuel + 1, search_class, method_name =>
    match
      (match lookupStr I.methods search_class with
       | some tbl => lookupStr tbl method_name
       | none => none) with
    | some md => some md
    | none =>
      match lookupStr I.classes search_class with
      | some cd =>
        match cd.parent with
        | some p => find_method I fuel p method_name
        | none => none
      | none => none

/-! ### Lexer (lexer.py)

Tokens are modelled with their source fields; token type names are the
string constants of the source module ("WORD", "NUMBER", "PERIOD", ...).
`tokenize` operates on the comment-stripped source (strip_comments replaces
lines beginning with "Note:" by blank lines and is the identity on sources
without such lines); character classes use the ASCII readings of Python
isdigit/isalpha/isalnum. -/

/-- Token: type tag, literal text, source line. -/
structure Token where
  type : String
  value : String
  line : Nat
deriving Repr, DecidableEq

/-- Lexer.read_number, lines 97-111, as a function from the remaining
source characters to the accumulated token text: consume digits, and
consume a decimal point only when the character immediately after it
exists and is a digit (the source condition `pos + 1 < len and
source[pos+1].isdigit()` is encoded as `(rest.headD ' ').isDigit`, the
blank default covering the no-next-character case); otherwise stop,
leaving the point unconsumed. -/
def read_number_aux : List Char → List Char → List Char × List Char
  | buf, [] => (buf, [])
  | buf, c :: rest =>
    if c.isDigit then read_number_aux (buf ++ [c]) rest
    else if c = '.' ∧ (rest.headD ' ').isDigit then read_number_aux (buf ++ [c]) rest
    else (buf, c :: rest)

/-- Lexer.read_number: token text and remaining characters. -/
def read_number (cs : List Char) : String × List Char :=
  let p := read_number_aux [] cs
  (String.mk p.1, p.2)

/-- Lexer.read_word: first character is consumed unconditionally, then
letters/digits/underscore. -/
def read_word_aux : List Char → List Char → List Char × List Char
  | buf, [] => (buf, [])
  | buf, c :: rest =>
    if c.isAlphanum || c = '_' then read_word_aux (buf ++ [c]) rest
    else (buf, c :: rest)

/-- Lexer.read_word applied to the first character and the rest. -/
def read_word (c : Char) (cs : List Char) : String × List Char :=
  let p := read_word_aux [c] cs
  (String.mk p.1, p.2)

/-- Lexer.skip_whitespace: consume blanks/tabs/CR/LF, counting lines. -/
def skip_whitespace : Nat → List Char → Nat × List Char
  | line, [] => (line, [])
  | line, c :: rest =>
    if c = ' ' || c = '\t' || c = '\r' || c = '\n' then
      skip_whitespace (if c = '\n' then line + 1 else line) rest
    else (line, c :: rest)

/-- String-literal scan of Lexer.tokenize (the '"' branch): process escape
pairs, record whether an unescaped interpolation brace occurred, count
newlines; none models the unclosed-string LexerError. Returns the token
text, the interpolation flag, the updated line and the rest (after the
closing quote). -/
def read_string_aux : List Char → List Char → Bool → Nat →
    Option (String × Bool × Nat × List Char)
  | [], _, _, _ => none
  | '"' :: rest, buf, interp, line => some (String.mk buf, interp, line, rest)
  | '\\' :: d :: rest, buf, interp, line =>
    if d = 'n' then read_string_aux rest (buf ++ ['\n']) interp line
    else if d = 't' then read_string_aux rest (buf ++ ['\t']) interp line
    else if d = '\x7b' then read_string_aux rest (buf ++ ['\x7b']) interp line
    else if d = '"' then read_string_aux rest (buf ++ ['"']) interp line
    else if d = '\\' then read_string_aux rest (buf ++ ['\\']) interp line
    else read_string_aux (d :: rest) (buf ++ ['\\']) interp line
  | c :: rest, buf, interp, line =>
    read_string_aux rest (buf ++ [c]) (interp || c = '\x7b')
      (if c = '\n' then line + 1 else line)

/-- Inline-comment skip: advance to the end of the current line. -/
def skipToEol (cs : List Char) : List Char :=
  cs.dropWhile (fun ch => !(ch = '\n'))

/-- Abbreviated message of the unreadable-character LexerError. -/
def lexerErrMsg : String := "I do not understand this character."

/-- Message of the unclosed-string LexerError. -/
def unclosedStringMsg : String := "Unclosed string."

/-- Lexer.tokenize main loop (lines 122-225). Each iteration skips
whitespace, then dispatches on the current character exactly as the
source: "..." is skipped, a lone '.' is the PERIOD token, the punctuation
and math-symbol branches, string literals, `---` and `//` inline comments
skipping to end of line, numbers and words; any other character is a
LexerError. The fuel argument bounds the loop; every iteration consumes at
least one character, so `length + 1` fuel always suffices (the fuel
message is unreachable from `tokenize`). -/
def tokenize_aux : Nat → Nat → List Char → Except String (List Token)
  | fuel, line, cs =>
    let p := skip_whitespace line cs
    match p.2 with
    | [] => .ok [Token.mk "EOF" "" p.1]
    | c :: rest =>
      match fuel with
      | 0 => .error "internal: tokenizer fuel exhausted"
      | fuel + 1 =>
        if c = '.' then
          match rest with
          | '.' :: '.' :: r3 => tokenize_aux fuel p.1 r3
          | _ =>
            Except.map (fun ts => Token.mk "PERIOD" "." p.1 :: ts)
              (tokenize_aux fuel p.1 rest)
        else if c = ',' then
          Except.map (fun ts => Token.mk "COMMA" "," p.1 :: ts)
            (tokenize_aux fuel p.1 rest)
        else if c = ':' then
          Except.map (fun ts => Token.mk "COLON" ":" p.1 :: ts)
            (tokenize_aux fuel p.1 rest)
        else if c = '\x7b' then
          Except.map (fun ts => Token.mk "LBRACE" "\x7b" p.1 :: ts)
            (tokenize_aux fuel p.1 rest)
        else if c = '\x7d' then
          Except.map (fun ts => Token.mk "RBRACE" "\x7d" p.1 :: ts)
            (tokenize_aux fuel p.1 rest)
        else if c = '"' then
          match read_string_aux rest [] false p.1 with
          | none => .error unclosedStringMsg
          | some (raw, interp, line2, rest2) =>
            Except.map
              (fun ts =>
                Token.mk (if interp then "INTERP_STRING" else "STRING_QUOTED") raw p.1 :: ts)
              (tokenize_aux fuel line2 rest2)
        else if c = '+' then
          Except.map (fun ts => Token.mk "PLUS" "+" p.1 :: ts)
            (tokenize_aux fuel p.1 rest)
        else if c = '-' then
          match rest with
          | '-' :: '-' :: _ => tokenize_aux fuel p.1 (skipToEol (c :: rest))
          | _ =>
            Except.map (fun ts => Token.mk "MINUS" "-" p.1 :: ts)
              (tokenize_aux fuel p.1 rest)
        else if c = '*' then
          Except.map (fun ts => Token.mk "STAR" "*" p.1 :: ts)
            (tokenize_aux fuel p.1 rest)
        else if c = '/' then
          match rest with
          | '/' :: _ => tokenize_aux fuel p.1 (skipToEol (c :: rest))
          | _ =>
            Except.map (fun ts => Token.mk "SLASH" "/" p.1 :: ts)
              (tokenize_aux fuel p.1 rest)
        else if c = '%' then
          Except.map (fun ts => Token.mk "PERCENT" "%" p.1 :: ts)
            (tokenize_aux fuel p.1 rest)
        else if c = '!' then
          match rest with
          | '=' :: r2 =>
            Except.map (fun ts => Token.mk "NEQ" "!=" p.1 :: ts)
              (tokenize_aux fuel p.1 r2)
          | _ => .error lexerErrMsg
        else if c = '<' then
          match rest with
          | '=' :: r2 =>
            Except.map (fun ts => Token.mk "LTE" "<=" p.1 :: ts)
              (tokenize_aux fuel p.1 r2)
          | _ =>
            Except.map (fun ts => Token.mk "LT" "<" p.1 :: ts)
              (tokenize_aux fuel p.1 rest)
        else if c = '>' then
          match rest with
          | '=' :: r2 =>
            Except.map (fun ts => Token.mk "GTE" ">=" p.1 :: ts)
              (tokenize_aux fuel p.1 r2)
          | _ =>
            Except.map (fun ts => Token.mk "GT" ">" p.1 :: ts)
              (tokenize_aux fuel p.1 rest)
        else if c = '=' then
          Except.map (fun ts => Token.mk "EQ" "=" p.1 :: ts)
            (tokenize_aux fuel p.1 rest)
        else if c.isDigit then
          let p2 := read_number (c :: rest)
          Except.map (fun ts => Token.mk "NUMBER" p2.1 p.1 :: ts)
            (tokenize_aux fuel p.1 p2.2)
        else if c.isAlpha || c = '_' then
          let p2 := read_word c rest
          Except.map (fun ts => Token.mk "WORD" p2.1 p.1 :: ts)
            (tokenize_aux fuel p.1 p2.2)
        else .error lexerErrMsg

/-- Lexer.tokenize on the comment-stripped source text. -/
def tokenize (source : String) : Except String (List Token) :=
  tokenize_aux (source.length + 1) 1 source.data

/-! ### Parser fragment (parser.py): compound conditions -/

/-- Parser cursor state: the token list and current position. The token
list always ends with the EOF sentinel in practice; `current` reads it as
a default when out of range. -/
structure ParserState where
  tokens : List Token
  pos : Nat
deriving Repr, DecidableEq

/-- Parser.current. -/
def ParserState.current (st : ParserState) : Token :=
  st.tokens.getD st.pos (Token.mk "EOF" "" 0)

/-- Position change of Parser.advance: move forward unless already at the
last token. -/
def ParserState.advancePos (st : ParserState) : ParserState :=
  if st.pos < st.tokens.length - 1 then { st with pos := st.pos + 1 } else st

/-- Parser.word_is: current token is a WORD whose lowercased text is among
the given (lowercased) words. -/
def word_is (st : ParserState) (words : List String) : Bool :=
  (st.current).type = "WORD" &&
    (words.map lowerStr).contains (lowerStr (st.current).value)

/-- Loop of Parser.parse_compound_condition (lines 1522-1529): while the
current token is the word "and" or "or", consume it and a following single
condition, left-fold into CompoundCondition(left, connective, right). The
single-condition production is passed as a function (the behavior of
Parser.parse_single_condition). The fuel bounds the loop; since
parse_single_condition always advances the cursor, a fuel of the token
count suffices, and the theorems supply enough fuel explicitly. -/
def parse_compound_condition_aux
    (parseSingle : ParserState → Except String (Cond × ParserState)) :
    Nat → Cond → ParserState → Except String (Cond × ParserState)
  | fuel, left, st =>
    if word_is st ["and", "or"] then
      match fuel with
      | 0 => .error "internal: parser loop fuel exhausted"
      | fuel + 1 =>
        let conn := lowerStr (st.current).value
        match parseSingle st.advancePos with
        | .error er => .error er
        | .ok (right, st2) =>
          parse_compound_condition_aux parseSingle fuel
            (.CompoundCondition left conn right) st2
    else .ok (left, st)

/-- Parser.parse_compound_condition: one single condition, then the
and/or fold. -/
def parse_compound_condition
    (parseSingle : ParserState → Except String (Cond × ParserState))
    (fuel : Nat) (st : ParserState) : Except String (Cond × ParserState) :=
  match parseSingle st with
  | .error er => .error er
  | .ok (left, st1) => parse_compound_condition_aux parseSingle fuel left st1

/-- Condition node for a syntactically true condition: the bare type
predicate "is a boolean" applied to the literal true. -/
def condAlwaysTrue : Cond := .Condition (.BoolLiteral true) "is_boolean" none

/-- Demonstration method: speak as defined on class Animal. -/
def animalSpeak : MethodDef := ⟨"Animal", "speak", [], [], false⟩

/-- Demonstration method: walk as defined on class Animal. -/
def animalWalk : MethodDef := ⟨"Animal", "walk", [], [], false⟩

/-- Demonstration method: the overriding speak of class Dog. -/
def dogSpeak : MethodDef := ⟨"Dog", "speak", [], [], false⟩

/-- Demonstration class hierarchy: Dog inherits from Animal; Animal defines
speak and walk, Dog overrides speak. -/
def demoInterp : Interp :=
  ⟨[],
   [("Animal", ⟨"Animal", [], none⟩), ("Dog", ⟨"Dog", [], some "Animal"⟩)],
   [("Animal", [("speak", animalSpeak), ("walk", animalWalk)]),
    ("Dog", [("speak", dogSpeak)])]⟩

/-! ## Helper lemmas -/

/-- Idempotence of _clean. -/
theorem clean_clean (v : Val) : clean (clean v) = clean v := by
  cases v with
  | vfloat q =>
    by_cases h : q.den = 1 <;> simp [clean, h]
  | vint n => rfl
  | vstr s => rfl
  | vbool b => rfl
  | vnone => rfl
  | vlist l => rfl
  | vdict l => rfl
  | vclosure n => rfl
  | vtask r e => rfl

/-- A frame that lacks a name yields none on lookup. -/
theorem frameGet_eq_none_of_not_has {f : Frame} {n : String}
    (h : frameHas f n = false) : frameGet f n = none := by
  unfold frameHas at h
  exact Option.not_isSome_iff_eq_none.mp (by simp [h])

/-- Updating a frame at a name makes that name resolve to the new value. -/
theorem frameGet_frameSet (f : Frame) (n : String) (v : Val) :
    frameGet (frameSet f n v) n = some v := by
  induction f with
  | nil => simp [frameSet, frameGet]
  | cons p rest ih =>
    by_cases h : p.1 = n
    · simp [frameSet, frameGet, h]
    · simp [frameSet, frameGet, h, ih]

/-- Environment.assign on a one-frame chain (the root with no parent)
creates or rewrites the binding in that frame. -/
theorem assign_single (f : Frame) (n : String) (v : Val) :
    Environment.assign [f] n v = [frameSet f n v] := by
  have h : Environment.assign [f] n v =
      if frameHas f n then frameSet f n v :: ([] : Env) else [frameSet f n v] := rfl
  rw [h]
  split <;> rfl

/-- Environment.assign steps over a frame that lacks the name when a parent
exists. -/
theorem assign_cons_of_not_has (f g : Frame) (rest : Env) (n : String) (v : Val)
    (hf : frameHas f n = false) :
    Environment.assign (f :: g :: rest) n v
      = f :: Environment.assign (g :: rest) n v := by
  have h : Environment.assign (f :: g :: rest) n v =
      if frameHas f n then frameSet f n v :: g :: rest
      else f :: Environment.assign (g :: rest) n v := rfl
  rw [h, if_neg (by simp [hf])]

/-- Environment.assign on a chain in which no frame owns the name walks to
the root frame and creates the binding there, leaving every other frame
unchanged. -/
theorem assign_fresh_creates_at_root (pre : Env) (froot : Frame) (n : String) (v : Val)
    (h1 : ∀ f ∈ pre, frameHas f n = false) :
    Environment.assign (pre ++ [froot]) n v = pre ++ [frameSet froot n v] := by
  induction pre with
  | nil => simpa using assign_single froot n v
  | cons f rest ih =>
    have hf : frameHas f n = false := h1 f (by simp)
    have hrest : ∀ g ∈ rest, frameHas g n = false := fun g hg => h1 g (by simp [hg])
    cases rest with
    | nil =>
      simp only [List.nil_append, List.cons_append]
      rw [assign_cons_of_not_has f froot [] n v hf, assign_single]
    | cons g rest2 =>
      simp only [List.cons_append] at ih ⊢
      rw [assign_cons_of_not_has f g (rest2 ++ [froot]) n v hf, ih hrest]

/-- Lookup along a chain whose leading frames all lack the name reaches the
final frame. -/
theorem get_append_fresh (pre : Env) (f : Frame) (n : String)
    (h1 : ∀ g ∈ pre, frameHas g n = false) :
    Environment.get (pre ++ [f]) n = frameGet f n := by
  induction pre with
  | nil =>
    simp [Environment.get]
    cases h : frameGet f n <;> simp [h]
  | cons g rest ih =>
    have hg : frameGet g n = none := frameGet_eq_none_of_not_has (h1 g (by simp))
    have hrest : ∀ g2 ∈ rest, frameHas g2 n = false := fun g2 h2 => h1 g2 (by simp [h2])
    simp [Environment.get, hg, ih hrest]

/-! ## Claims -/

/-- C1: the claim asserts that an identifier bound in no scope and naming
no defined function fails with a name-not-found runtime error. It is false:
`Environment.get` does raise, but the Identifier branch of
Interpreter.evaluate catches the error and evaluates the identifier to its
own text. At the concrete input: name "foo", empty scope chain, empty
function table, evaluation succeeds with the text value "foo". -/
theorem c1_counterexample :
    Environment.get ([[]] : Env) "foo" = none
    ∧ lookupStr interpEmpty.functions "foo" = none
    ∧ evaluate interpEmpty (.Identifier "foo") ([[]] : Env) = .ok (.vstr "foo") := by
  refine ⟨rfl, rfl, ?_⟩
  simp [evaluate, Environment.get, frameGet, interpEmpty, lookupStr]

/-- C1 (amended): for an identifier bound in no scope of the chain,
`Environment.get` reports name-not-found (none), but evaluation catches
it: when the name is in the global function table the identifier evaluates
to a closure over that function, and otherwise it evaluates to its own
text as a string value; it never surfaces the name-not-found error. -/
theorem c1_amended (I : Interp) (env : Env) (n : String)
    (hun : Environment.get env n = none) :
    (lookupStr I.functions n = none →
      evaluate I (.Identifier n) env = .ok (.vstr n))
    ∧ (∀ fd, lookupStr I.functions n = some fd →
      evaluate I (.Identifier n) env = .ok (.vclosure n)) := by
  constructor
  · intro hf
    simp [evaluate, hun, hf]
  · intro fd hf
    simp [evaluate, hun, hf]

/-- C1 witness: the amended theorem at the concrete unbound name "foo". -/
theorem c1_amended_witness :
    evaluate interpEmpty (.Identifier "foo") ([[]] : Env) = .ok (.vstr "foo") :=
  (c1_amended interpEmpty [[]] "foo" rfl).1 rfl

/-- C2: the claim asserts that a fresh variable introduced inside a block
is created in the own scope of the block and that no enclosing scope holds it
afterwards. It is false: `Let` inside the taken branch of an if statement
binds via Environment.assign, whose recursion creates an unseen name in
the root scope. At the concrete input — `If (true is a boolean) then Let x
be 5` executed in a chain consisting of one (global) frame — the enclosing
global scope itself ends up owning x = 5 after the block completes. -/
theorem c2_counterexample :
    execStmts interpEmpty
        [.IfStmt condAlwaysTrue [.LetStmt "x" (.NumberLiteral 5)] []]
        ([[]] : Env) = .okS [[("x", .vint 5)]]
    ∧ Environment.get ([[("x", .vint 5)]] : Env) "x" = some (.vint 5) := by
  constructor
  · simp [execStmts, evaluate_condition, condAlwaysTrue, evaluate,
      Environment.assign, frameHas, frameGet, frameSet]
  · rfl

/-- C2 (amended): a variable declared fresh inside a block — a name no
frame of the chain owns — is created by Environment.assign in the
OUTERMOST (root) frame of the chain, not in the own scope of the block, and the
binding persists in that enclosing scope after the child frame of the block is
discarded, where the name then resolves to the assigned value. -/
theorem c2_amended (I : Interp) (pre : Env) (froot : Frame) (n : String)
    (e : Expr) (v : Val)
    (h1 : ∀ f ∈ pre, frameHas f n = false) (h2 : frameHas froot n = false)
    (he : evaluate I e (([] : Frame) :: (pre ++ [froot])) = .ok v) :
    execStmts I [.IfStmt condAlwaysTrue [.LetStmt n e] []] (pre ++ [froot])
      = .okS (pre ++ [frameSet froot n v])
    ∧ Environment.get (pre ++ [frameSet froot n v]) n = some v := by
  have hc : evaluate_condition I condAlwaysTrue (pre ++ [froot]) = .ok true := by
    simp [evaluate_condition, condAlwaysTrue, evaluate]
  have hassign : Environment.assign (([] : Frame) :: (pre ++ [froot])) n v
      = ([] : Frame) :: (pre ++ [frameSet froot n v]) := by
    have := assign_fresh_creates_at_root (([] : Frame) :: pre) froot n v
      (by
        intro f hf
        rcases List.mem_cons.mp hf with h | h
        · subst h; rfl
        · exact h1 f h)
    simpa using this
  constructor
  · simp [execStmts, hc, he, hassign]
  · have := get_append_fresh pre (frameSet froot n v) n h1
    rw [this, frameGet_frameSet]

/-- C2 witness: the amended theorem at a concrete two-frame chain — a
child frame binding y over a global frame — and the fresh name x. -/
theorem c2_amended_witness :
    execStmts interpEmpty
        [.IfStmt condAlwaysTrue [.LetStmt "x" (.NumberLiteral 5)] []]
        ([[("y", .vint 1)], []] : Env)
      = .okS [[("y", .vint 1)], [("x", .vint 5)]]
    ∧ Environment.get ([[("y", .vint 1)], [("x", .vint 5)]] : Env) "x"
      = some (.vint 5) := by
  have h := c2_amended interpEmpty [[("y", .vint 1)]] [] "x" (.NumberLiteral 5)
    (.vint 5) (by decide) (by decide) (by simp [evaluate])
  simpa using h

/-- C3: the claim asserts that every arithmetic operation with a whole
result is normalized to integer presentation, including plus. It is false
at the value level for plus: `_apply_op` passes minus/times/divide/modulo
results through `_clean` but returns the raw Python sum for plus, so
1.5 plus 1.5 yields the float 3.0 (un-normalized, distinct from the int 3
that _clean would produce). -/
theorem c3_counterexample :
    applyOp "plus" (.vfloat (3 / 2)) (.vfloat (3 / 2)) = .ok (.vfloat 3)
    ∧ clean (.vfloat 3) = .vint 3
    ∧ Val.vfloat 3 ≠ Val.vint 3 := by
  refine ⟨?_, ?_, ?_⟩
  · simp [applyOp, plusNum?, isStrVal, isFloatVal]
  · rfl
  · intro h
    exact Val.noConfusion h

/-- C3 (amended): the results of minus, times, divided_by and modulo are
passed through _clean and hence are always in normalized form (never a
whole-valued float); 6 divided by 2 yields the integer 3; plus is NOT
passed through _clean — on two ints the raw sum is already an int, but on
float operands a whole sum stays a float — and the textual rendering
independently renders a whole-valued float without a decimal point. -/
theorem c3_amended :
    (∀ (op : String) (l r v : Val),
        op ∈ (["minus", "times", "divided_by", "modulo"] : List String) →
        applyOp op l r = .ok v → clean v = v)
    ∧ applyOp "divided_by" (.vint 6) (.vint 2) = .ok (.vint 3)
    ∧ (∀ a b : Int, applyOp "plus" (.vint a) (.vint b) = .ok (.vint (a + b)))
    ∧ (∀ q : ℚ, q.den = 1 → _to_display (.vfloat q) = toString q.num) := by
  refine ⟨?_, ?_, ?_, ?_⟩
  · intro op l r v hop h
    fin_cases hop <;>
    · simp only [applyOp, String.reduceEq, reduceIte] at h
      cases hl : assert_num l <;> cases hr : assert_num r <;>
        simp only [hl, hr] at h
      all_goals first
      | (simp only [Except.ok.injEq] at h; subst h; exact clean_clean _)
      | (split at h <;>
          first
          | (simp only [Except.ok.injEq] at h; subst h; exact clean_clean _)
          | simp at h)
      | simp at h
  · simp [applyOp, assert_num, clean]
    norm_num
  · intro a b
    have hnum : ((a : ℚ) + (b : ℚ)).num = a + b := by
      rw [← Int.cast_add, Rat.num_intCast]
    simp [applyOp, plusNum?, isStrVal, isFloatVal, hnum]
  · intro q hq
    simp [_to_display, hq]

/-- C3 witness: the amended theorem applied at minus on 3.5 and 0.5 (a
whole float result, normalized to the int 3 by _clean). -/
theorem c3_amended_witness : clean (Val.vint 3) = Val.vint 3 :=
  c3_amended.1 "minus" (.vfloat (7 / 2)) (.vfloat (1 / 2)) (.vint 3)
    (by decide)
    (by simp [applyOp, assert_num, arithVal, isFloatVal, clean]; norm_num)

/-- C4: the claim asserts that both error-handling statements run their
protected body in a fresh child scope, so a fresh binding made there is
not a binding of the entry scope itself. It is false: at the concrete
input — attempt over `Let x be 5` from a single-frame (global) chain — the
attempt statement runs the body directly in the entry scope (no child
frame is created, lines 814-828), and the fresh binding lands in the entry
own frame of the entry scope, which holds x = 5 afterwards. -/
theorem c4_counterexample :
    execStmts interpEmpty
        [.AttemptStmt [.LetStmt "x" (.NumberLiteral 5)] "err" []]
        ([[]] : Env) = .okS [[("x", .vint 5)]]
    ∧ frameHas [("x", .vint 5)] "x" = true := by
  constructor
  · simp [execStmts, evaluate, Environment.assign, frameHas, frameGet, frameSet]
  · rfl

/-- C4 (amended): try/handle executes its protected body in a fresh child
scope of the entry scope (the child frame is pushed and discarded — its
completed execution hands back exactly the entry chain); attempt/rescue
executes its protected body DIRECTLY in the entry scope, with no child
frame, so the full effect of the body on the chain is kept as is. In both
constructs a fresh Let binding is created by Environment.assign in the
outermost frame of the chain, so it can end up a binding of the entry
scope itself. -/
theorem c4_amended :
    (∀ (I : Interp) (b : List Stmt) (ev : String) (h : List Stmt)
        (env e2 : Env),
        execStmts I b env = .okS e2 →
        execStmts I [.AttemptStmt b ev h] env = .okS e2)
    ∧ (∀ (I : Interp) (b : List Stmt) (ev : String) (h : List Stmt)
        (env : Env) (f2 : Frame) (e2 : Env),
        execStmts I b (([] : Frame) :: env) = .okS (f2 :: e2) →
        execStmts I [.TryCatch b ev h] env = .okS e2) := by
  constructor
  · intro I b ev h env e2 hb
    simp [execStmts, hb]
  · intro I b ev h env f2 e2 hb
    simp [execStmts, hb]

/-- C4 witness: the amended theorem at empty protected bodies over a
single-frame chain. -/
theorem c4_amended_witness :
    execStmts interpEmpty [.AttemptStmt [] "err" []] ([[]] : Env) = .okS [[]]
    ∧ execStmts interpEmpty [.TryCatch [] "err" []] ([[]] : Env) = .okS [[]] :=
  ⟨c4_amended.1 interpEmpty [] "err" [] [[]] [[]] (by simp [execStmts]),
   c4_amended.2 interpEmpty [] "err" [] [[]] [] [[]] (by simp [execStmts])⟩

/-- C5: a "wait for" on an async task handle returns the stored result or
re-raises the stored error, as the claim says; but waiting on a text value
does NOT produce the reported usage error the claim asserts: Python str
has a `join` attribute, so the duck-typing check `hasattr(future, "join")`
sends a text value down the thread-join path, where `"hello".join()`
raises a host-level TypeError that nothing in the interpreter catches — an
unhandled crash. Only values with neither attribute (e.g. a number) reach
the intended usage error. -/
theorem c5_wait_behavior :
    (∀ (r : Val) (er : Err), wait_for (.vtask r (some er)) = .error er)
    ∧ (∀ r : Val, wait_for (.vtask r none) = .ok r)
    ∧ evaluate interpEmpty (.WaitExpr (.LiteralNode (.vstr "hello"))) ([[]] : Env)
      = .error (.host strJoinTypeErrorMsg)
    ∧ wait_for (.vint 3) = .error (.rt waitUsageMsg) := by
  refine ⟨fun r er => rfl, fun r => rfl, ?_, rfl⟩
  simp [evaluate, wait_for]

/-- read_number_aux consumes a prefix: token text plus rest re-forms the
input after the accumulated buffer. -/
theorem read_number_aux_append (cs : List Char) :
    ∀ buf, (read_number_aux buf cs).1 ++ (read_number_aux buf cs).2 = buf ++ cs := by
  induction cs with
  | nil => intro buf; simp [read_number_aux]
  | cons c rest ih =>
    intro buf
    simp only [read_number_aux]
    by_cases hd : c.isDigit
    · rw [if_pos hd, ih (buf ++ [c])]
      simp
    · rw [if_neg hd]
      by_cases hc : c = '.' ∧ (rest.headD ' ').isDigit
      · rw [if_pos hc, ih (buf ++ [c])]
        simp
      · rw [if_neg hc]

/-- Characters of a read_number_aux token come from the buffer or are
digits or points. -/
theorem read_number_aux_chars (cs : List Char) :
    ∀ buf ch, ch ∈ (read_number_aux buf cs).1 →
      ch ∈ buf ∨ ch.isDigit = true ∨ ch = '.' := by
  induction cs with
  | nil => intro buf ch hm; simp [read_number_aux] at hm; exact Or.inl hm
  | cons c rest ih =>
    intro buf ch hm
    simp only [read_number_aux] at hm
    by_cases hd : c.isDigit
    · rw [if_pos hd] at hm
      rcases ih (buf ++ [c]) ch hm with h | h
      · rcases List.mem_append.mp h with h2 | h2
        · exact Or.inl h2
        · simp at h2; subst h2; exact Or.inr (Or.inl hd)
      · exact Or.inr h
    · rw [if_neg hd] at hm
      by_cases hc : c = '.' ∧ (rest.headD ' ').isDigit
      · rw [if_pos hc] at hm
        rcases ih (buf ++ [c]) ch hm with h | h
        · rcases List.mem_append.mp h with h2 | h2
          · exact Or.inl h2
          · simp at h2; subst h2; exact Or.inr (Or.inr hc.1)
        · exact Or.inr h
      · rw [if_neg hc] at hm
        exact Or.inl hm

/-- When read_number_aux stops at a point, the character after that point
(when one exists) is not a digit. -/
theorem read_number_aux_rest (cs : List Char) :
    ∀ buf rest2, (read_number_aux buf cs).2 = '.' :: rest2 →
      (rest2.headD ' ').isDigit = false := by
  induction cs with
  | nil => intro buf rest2 h; simp [read_number_aux] at h
  | cons c rest ih =>
    intro buf rest2 h
    simp only [read_number_aux] at h
    by_cases hd : c.isDigit
    · rw [if_pos hd] at h
      exact ih (buf ++ [c]) rest2 h
    · rw [if_neg hd] at h
      by_cases hc : c = '.' ∧ (rest.headD ' ').isDigit
      · rw [if_pos hc] at h
        exact ih (buf ++ [c]) rest2 h
      · rw [if_neg hc] at h
        change c :: rest = '.' :: rest2 at h
        injection h with h1 h2
        subst h2
        rcases not_and_or.mp hc with h3 | h3
        · exact absurd h1 h3
        · simpa using h3

/-- One tokenizer step at a point character: an ellipsis start is skipped,
any other point is emitted as the PERIOD token. -/
theorem tokenize_aux_period_step (fuel line : Nat) (rest2 : List Char) :
    tokenize_aux (fuel + 1) line ('.' :: rest2) =
      match rest2 with
      | '.' :: '.' :: r3 => tokenize_aux fuel line r3
      | _ => Except.map (fun ts => Token.mk "PERIOD" "." line :: ts)
          (tokenize_aux fuel line rest2) := rfl

/-- C6: the claim asserts a lexer number token contains at most one
embedded decimal point. It is false: read_number consumes EVERY point that
is immediately followed by a digit, so the source text "3.5.2" is consumed
into a single NUMBER token whose text "3.5.2" embeds two points (and the
whole tokenizer run yields that one NUMBER token before EOF). -/
theorem c6_counterexample :
    (read_number ("3.5.2".data)).1 = "3.5.2"
    ∧ (read_number ("3.5.2".data)).2 = []
    ∧ ("3.5.2".data.count '.') = 2
    ∧ tokenize "3.5.2"
      = .ok [Token.mk "NUMBER" "3.5.2" 1, Token.mk "EOF" "" 1] := by
  exact ⟨rfl, rfl, rfl, rfl⟩

/-- C6 (amended): a number token consists of digits and of decimal points
each immediately followed by a digit — so several embedded points are
possible — and a trailing point NOT followed by a digit is never consumed
into the number token: read_number consumes a prefix of the source, and
when the remaining text starts with the unconsumed point, the character
after that point is not a digit; the tokenizer then emits that point as
the sentence-terminating PERIOD token (unless it begins an ellipsis
"..."). -/
theorem c6_amended :
    (∀ cs : List Char,
        (read_number cs).1.data ++ (read_number cs).2 = cs)
    ∧ (∀ (cs : List Char) (ch : Char), ch ∈ (read_number cs).1.data →
        ch.isDigit = true ∨ ch = '.')
    ∧ (∀ (cs rest2 : List Char), (read_number cs).2 = '.' :: rest2 →
        (rest2.headD ' ').isDigit = false)
    ∧ (∀ (fuel line : Nat) (rest2 : List Char),
        (∀ r3 : List Char, rest2 ≠ '.' :: '.' :: r3) →
        tokenize_aux (fuel + 1) line ('.' :: rest2)
          = Except.map (fun ts => Token.mk "PERIOD" "." line :: ts)
              (tokenize_aux fuel line rest2)) := by
  refine ⟨?_, ?_, ?_, ?_⟩
  · intro cs
    simpa [read_number] using read_number_aux_append cs []
  · intro cs ch hm
    have h := read_number_aux_chars cs [] ch (by simpa [read_number] using hm)
    simpa using h
  · intro cs rest2 h
    exact read_number_aux_rest cs [] rest2 (by simpa [read_number] using h)
  · intro fuel line rest2 hne
    rw [tokenize_aux_period_step fuel line rest2]
    split
    · rename_i r3
      exact absurd rfl (hne r3)
    · rfl

/-- C6 witness: the amended theorem at the source text "3." — the token
text "3" plus the unconsumed point re-form the input, nothing follows the
point, and the tokenizer emits it as a PERIOD token. -/
theorem c6_amended_witness :
    (read_number ("3.".data)).1.data ++ (read_number ("3.".data)).2 = "3.".data
    ∧ ((([] : List Char).headD ' ').isDigit = false)
    ∧ tokenize_aux 2 1 ['.']
      = Except.map (fun ts => Token.mk "PERIOD" "." 1 :: ts)
          (tokenize_aux 1 1 []) :=
  ⟨c6_amended.1 ("3.".data),
   c6_amended.2.2.1 ("3.".data) [] rfl,
   c6_amended.2.2.2 1 1 [] (fun _ h => List.noConfusion h)⟩

/-- One parse step of the and/or loop: with the current token an and/or
word and the single-condition production succeeding, the loop folds one
CompoundCondition and continues. -/
theorem pcc_aux_step_ok
    (ps : ParserState → Except String (Cond × ParserState)) (fuel : Nat)
    (left : Cond) (st : ParserState) (right : Cond) (st2 : ParserState)
    (w : word_is st ["and", "or"] = true)
    (hps : ps st.advancePos = .ok (right, st2)) :
    parse_compound_condition_aux ps (fuel + 1) left st =
      parse_compound_condition_aux ps fuel
        (.CompoundCondition left (lowerStr (st.current).value) right) st2 := by
  have h : parse_compound_condition_aux ps (fuel + 1) left st =
      if word_is st ["and", "or"] then
        match ps st.advancePos with
        | .error er => .error er
        | .ok (right, st2) =>
          parse_compound_condition_aux ps fuel
            (.CompoundCondition left (lowerStr (st.current).value) right) st2
      else .ok (left, st) := rfl
  rw [h, if_pos (by simp [w]), hps]

/-- Exit of the and/or loop: when the current token is not an and/or word
the accumulated condition is returned with the cursor unchanged. -/
theorem pcc_aux_stop
    (ps : ParserState → Except String (Cond × ParserState)) (fuel : Nat)
    (left : Cond) (st : ParserState)
    (w : word_is st ["and", "or"] = false) :
    parse_compound_condition_aux ps fuel left st = .ok (left, st) := by
  cases fuel with
  | zero =>
    have h : parse_compound_condition_aux ps 0 left st =
        if word_is st ["and", "or"] then
          .error "internal: parser loop fuel exhausted"
        else .ok (left, st) := rfl
    rw [h, if_neg (by simp [w])]
  | succ f =>
    have h : parse_compound_condition_aux ps (f + 1) left st =
        if word_is st ["and", "or"] then
          match ps st.advancePos with
          | .error er => .error er
          | .ok (right, st2) =>
            parse_compound_condition_aux ps f
              (.CompoundCondition left (lowerStr (st.current).value) right) st2
        else .ok (left, st) := rfl
    rw [h, if_neg (by simp [w])]

/-- C7: "A and B or C" parses as a left-associative chain with no
precedence distinction — parse_compound_condition folds the connectives
left-to-right into CompoundCondition((A and B), or, C) — and evaluating
that tree yields exactly ((a and b) or c) with the Python short-circuit
evaluation of evaluate_condition, where a, b, c are the values of the
three single conditions. -/
theorem c7_condition_chain
    (ps : ParserState → Except String (Cond × ParserState)) (I : Interp)
    (env : Env) (st0 st1 st2 st3 : ParserState) (A B C : Cond)
    (a b c : Bool) (fuel : Nat)
    (h0 : ps st0 = .ok (A, st1))
    (h1t : (st1.current).type = "WORD")
    (h1v : lowerStr (st1.current).value = "and")
    (h2 : ps st1.advancePos = .ok (B, st2))
    (h3t : (st2.current).type = "WORD")
    (h3v : lowerStr (st2.current).value = "or")
    (h4 : ps st2.advancePos = .ok (C, st3))
    (h5 : word_is st3 ["and", "or"] = false)
    (ha : evaluate_condition I A env = .ok a)
    (hb : evaluate_condition I B env = .ok b)
    (hc : evaluate_condition I C env = .ok c) :
    parse_compound_condition ps (fuel + 2) st0
      = .ok (.CompoundCondition (.CompoundCondition A "and" B) "or" C, st3)
    ∧ evaluate_condition I
        (.CompoundCondition (.CompoundCondition A "and" B) "or" C) env
      = .ok ((a && b) || c) := by
  constructor
  · have w1 : word_is st1 ["and", "or"] = true := by
      unfold word_is
      rw [h1t, h1v]
      decide
    have w2 : word_is st2 ["and", "or"] = true := by
      unfold word_is
      rw [h3t, h3v]
      decide
    have e0 : parse_compound_condition ps (fuel + 2) st0 =
        parse_compound_condition_aux ps (fuel + 2) A st1 := by
      unfold parse_compound_condition
      rw [h0]
    rw [e0, pcc_aux_step_ok ps (fuel + 1) A st1 B st2 w1 h2, h1v,
      pcc_aux_step_ok ps fuel _ st2 C st3 w2 h4, h3v]
    exact pcc_aux_stop ps fuel _ st3 h5
  · cases a <;> cases b <;> cases c <;>
      simp [evaluate_condition, ha, hb, hc]

/-- C7 witness: the chain theorem at a concrete token stream
"p and q or r." with a single-condition production that consumes one token
and yields the always-true condition. -/
theorem c7_condition_chain_witness :
    parse_compound_condition
        (fun st => .ok (condAlwaysTrue, st.advancePos)) 2
        ⟨[Token.mk "WORD" "p" 1, Token.mk "WORD" "and" 1,
          Token.mk "WORD" "q" 1, Token.mk "WORD" "or" 1,
          Token.mk "WORD" "r" 1, Token.mk "PERIOD" "." 1,
          Token.mk "EOF" "" 1], 0⟩
      = .ok (.CompoundCondition
              (.CompoundCondition condAlwaysTrue "and" condAlwaysTrue)
              "or" condAlwaysTrue,
             ⟨[Token.mk "WORD" "p" 1, Token.mk "WORD" "and" 1,
               Token.mk "WORD" "q" 1, Token.mk "WORD" "or" 1,
               Token.mk "WORD" "r" 1, Token.mk "PERIOD" "." 1,
               Token.mk "EOF" "" 1], 5⟩)
    ∧ evaluate_condition interpEmpty
        (.CompoundCondition
          (.CompoundCondition condAlwaysTrue "and" condAlwaysTrue)
          "or" condAlwaysTrue) ([[]] : Env)
      = .ok ((true && true) || true) :=
  c7_condition_chain (fun st => .ok (condAlwaysTrue, st.advancePos))
    interpEmpty [[]] _ _ _ _ condAlwaysTrue condAlwaysTrue condAlwaysTrue
    true true true 0
    rfl rfl rfl rfl rfl rfl rfl rfl
    (by simp [evaluate_condition, condAlwaysTrue, evaluate])
    (by simp [evaluate_condition, condAlwaysTrue, evaluate])
    (by simp [evaluate_condition, condAlwaysTrue, evaluate])

/-- The while-loop model agrees with its iteration-counting twin. -/
theorem exec_while_aux_eq_count (condF : Env → Except Err Bool)
    (bodyF : Env → StmtRes) :
    ∀ (r : Nat) (env : Env),
      exec_while_aux condF bodyF r env = (exec_while_count condF bodyF r env).1 := by
  intro r
  induction r with
  | zero =>
    intro env
    cases h : condF env with
    | error er => simp [exec_while_aux, exec_while_count, h]
    | ok b => cases b <;> simp [exec_while_aux, exec_while_count, h]
  | succ r ih =>
    intro env
    cases h : condF env with
    | error er => simp [exec_while_aux, exec_while_count, h]
    | ok b =>
      cases b with
      | false => simp [exec_while_aux, exec_while_count, h]
      | true =>
        cases hb : bodyF env <;>
          simp [exec_while_aux, exec_while_count, h, hb, ih]

/-- The body of a while loop runs at most as many times as the remaining
iteration budget. -/
theorem exec_while_count_le (condF : Env → Except Err Bool)
    (bodyF : Env → StmtRes) :
    ∀ (r : Nat) (env : Env), (exec_while_count condF bodyF r env).2 ≤ r := by
  intro r
  induction r with
  | zero =>
    intro env
    cases h : condF env with
    | error er => simp [exec_while_count, h]
    | ok b => cases b <;> simp [exec_while_count, h]
  | succ r ih =>
    intro env
    cases h : condF env with
    | error er => simp [exec_while_count, h]
    | ok b =>
      cases b with
      | false => simp [exec_while_count, h]
      | true =>
        cases hb : bodyF env <;> simp [exec_while_count, h, hb]
        · exact ih _
        · exact ih _

/-- C8: a while loop executes its body at most 10,000,000 times — the
loop model equals an iteration-counting twin whose count is bounded by the
10,000,000 budget — and when the condition never becomes false (and the
body completes normally each time) the loop does not diverge: it raises
the fatal iteration-cap RuntimeError_ instead of iterating further. The
last conjunct is the same divergence statement for a body that leaves the
scope chain unchanged, with the final chain pinned. -/
theorem c8_while_cap :
    (∀ (condF : Env → Except Err Bool) (bodyF : Env → StmtRes) (env : Env),
        exec_while condF bodyF env = (exec_while_count condF bodyF 10000000 env).1)
    ∧ (∀ (condF : Env → Except Err Bool) (bodyF : Env → StmtRes) (r : Nat)
        (env : Env), (exec_while_count condF bodyF r env).2 ≤ r)
    ∧ (∀ (condF : Env → Except Err Bool) (bodyF : Env → StmtRes) (env : Env),
        (∀ e, condF e = .ok true) → (∀ e, ∃ e2, bodyF e = .okS e2) →
        ∃ e2, exec_while condF bodyF env = .errS (.rt whileCapMsg) e2)
    ∧ (∀ (condF : Env → Except Err Bool) (bodyF : Env → StmtRes) (env : Env),
        (∀ e, condF e = .ok true) → (∀ e, bodyF e = .okS e) →
        exec_while condF bodyF env = .errS (.rt whileCapMsg) env) := by
  refine ⟨?_, ?_, ?_, ?_⟩
  · intro condF bodyF env
    exact exec_while_aux_eq_count condF bodyF 10000000 env
  · intro condF bodyF r env
    exact exec_while_count_le condF bodyF r env
  · intro condF bodyF env hc hb
    have gen : ∀ (r : Nat) (env : Env), ∃ e2,
        exec_while_aux condF bodyF r env = .errS (.rt whileCapMsg) e2 := by
      intro r
      induction r with
      | zero =>
        intro env
        exact ⟨env, by simp [exec_while_aux, hc env]⟩
      | succ r ih =>
        intro env
        obtain ⟨e2, hb2⟩ := hb env
        obtain ⟨e3, h3⟩ := ih e2
        exact ⟨e3, by simp [exec_while_aux, hc env, hb2, h3]⟩
    exact gen 10000000 env
  · intro condF bodyF env hc hb
    have gen : ∀ (r : Nat),
        exec_while_aux condF bodyF r env = .errS (.rt whileCapMsg) env := by
      intro r
      induction r with
      | zero => simp [exec_while_aux, hc env]
      | succ r ih => simp [exec_while_aux, hc env, hb env, ih]
    exact gen 10000000

/-- C8 witness: the cap theorem at the constantly-true condition and the
chain-preserving body, from a one-frame chain. -/
theorem c8_while_cap_witness :
    exec_while (fun _ => .ok true) (fun e => .okS e) ([[]] : Env)
      = .errS (.rt whileCapMsg) [[]] :=
  c8_while_cap.2.2.2 (fun _ => .ok true) (fun e => .okS e) [[]]
    (fun _ => rfl) (fun _ => rfl)

/-- C9: method dispatch searches the own method table of the instance class
first and the first match wins; on a miss it follows the single-inheritance
parent link and continues there, so an overriding subclass definition is
selected on a subclass instance and an un-overridden method resolves to
the parent definition — shown both in general and on the concrete
Animal/Dog hierarchy where Dog overrides speak but not walk. -/
theorem c9_method_dispatch :
    (∀ (I : Interp) (fuel : Nat) (sc mn : String)
        (tbl : List (String × MethodDef)) (md : MethodDef),
        lookupStr I.methods sc = some tbl → lookupStr tbl mn = some md →
        find_method I (fuel + 1) sc mn = some md)
    ∧ (∀ (I : Interp) (fuel : Nat) (sc mn : String) (cd : ClassDef)
        (p : String),
        (match lookupStr I.methods sc with
         | some tbl => lookupStr tbl mn
         | none => none) = none →
        lookupStr I.classes sc = some cd → cd.parent = some p →
        find_method I (fuel + 1) sc mn = find_method I fuel p mn)
    ∧ find_method demoInterp 2 "Dog" "speak" = some dogSpeak
    ∧ find_method demoInterp 2 "Dog" "walk" = some animalWalk := by
  refine ⟨?_, ?_, rfl, rfl⟩
  · intro I fuel sc mn tbl md h1 h2
    simp [find_method, h1, h2]
  · intro I fuel sc mn cd p h1 h2 h3
    simp only [find_method, h1, h2, h3]

/-- C9 witness: the own-table-first part at the Dog table and speak. -/
theorem c9_method_dispatch_witness :
    find_method demoInterp 1 "Dog" "speak" = some dogSpeak :=
  c9_method_dispatch.1 demoInterp 0 "Dog" "speak" [("speak", dogSpeak)]
    dogSpeak rfl rfl

/-- C10: removing a dictionary value for a key the dictionary does not
contain is a silent no-op — no error is raised and the dictionary object
is left unchanged — while READING a value for a missing key raises the
key-not-found RuntimeError_. -/
theorem c10_remove_missing_key :
    (∀ (pairs : List (Val × Val)) (k : Val), dictHasKey pairs k = false →
        exec_remove_dict_value (.vdict pairs) k = .ok (.vdict pairs))
    ∧ (∀ (I : Interp) (env : Env) (pairs : List (Val × Val)) (k : Val),
        dictHasKey pairs k = false →
        evaluate I (.DictAccess (.LiteralNode (.vdict pairs)) (.LiteralNode k)) env
          = .error (.rt dictKeyMsg)) := by
  constructor
  · intro pairs k h
    simp [exec_remove_dict_value, h]
  · intro I env pairs k h
    simp [evaluate, h]

/-- C10 witness: the theorem at the one-entry dictionary with key "a" and
the missing key "b". -/
theorem c10_remove_missing_key_witness :
    exec_remove_dict_value (.vdict [(.vstr "a", .vint 1)]) (.vstr "b")
      = .ok (.vdict [(.vstr "a", .vint 1)])
    ∧ evaluate interpEmpty
        (.DictAccess (.LiteralNode (.vdict [(.vstr "a", .vint 1)]))
          (.LiteralNode (.vstr "b"))) ([[]] : Env)
      = .error (.rt dictKeyMsg) :=
  ⟨c10_remove_missing_key.1 [(.vstr "a", .vint 1)] (.vstr "b")
      (by simp [dictHasKey, pyEq]),
   c10_remove_missing_key.2 interpEmpty [[]] [(.vstr "a", .vint 1)] (.vstr "b")
      (by simp [dictHasKey, pyEq])⟩
